import Mathlib

/-!
Verification of the Compile-Lists record-reconciliation pipeline
(src/script.py), shallowly embedded in Lean.

The program has two core operations over tabular data (pandas DataFrames):

* `create_intermediate_csv` (the "normalize" / email-fanout stage,
  lines 45-94): lower-cases and strips column names, locates the
  `email` and optional `email2` columns, fans each row out according to
  which of the two email cells are populated, and finally drops the
  `email2` column from the result.

* `create_final_csv` (the "reconcile" / merge stage, lines 97-136):
  lower-cases and strips the column names of both datasets, renames the
  secondary columns through an optional mapping, filters secondary rows
  to those with a non-missing `email`, keeps the secondary rows whose
  `vin` or `email` value does NOT already occur among the corresponding
  column values of the intermediate dataset (two independent membership
  tests combined with AND), reindexes the survivors to the intermediate
  column layout, and appends them after the intermediate rows.

The embedding models a DataFrame as an ordered list of column names
plus rows of positionally aligned cells; a cell is `Option String`
(`none` is pandas NaN, i.e. a missing value). File loading and saving
are outside the model: the operations take and return datasets, and a
raised pandas error (`ValueError` / `KeyError`) is an `Except.error`.
-/

namespace CompileLists

/-- A cell of a DataFrame: a text value or missing (pandas NaN). -/
abbrev Cell := Option String

/-- A row: cells positionally aligned with the column-name list. -/
abbrev Row := List Cell

/-- A tabular dataset: ordered column names and rows of cells. -/
structure Dataset where
  cols : List String
  rows : List Row
deriving DecidableEq

/-- Python `str.lower` on a string, as used by `.str.lower()` (line 50,
103, 104) and `col.lower()` (lines 53, 54): lower-case every character. -/
def lowerStr (s : String) : String := ⟨s.data.map Char.toLower⟩

/-- Python `str.strip` on a character list: remove leading and trailing
whitespace. -/
def trimChars (l : List Char) : List Char :=
  ((l.dropWhile Char.isWhitespace).reverse.dropWhile Char.isWhitespace).reverse

/-- One column name after `df.columns.str.strip().str.lower()`
(lines 50, 103, 104). -/
def canonName (c : String) : String := lowerStr ⟨trimChars c.data⟩

/-- All column names after `df.columns.str.strip().str.lower()`. -/
def canonCols (cols : List String) : List String := cols.map canonName

/-- Index of the first column named `c`, if any. -/
def colIdx (c : String) : List String → Option Nat
  | [] => none
  | x :: xs =>
    if x = c then some 0 else
      match colIdx c xs with
      | some i => some (i + 1)
      | none => none

/-- Cell of `row` in the column named `c`: the cell at the first index
whose column name equals `c`, or missing when no column is named `c`. -/
def getCell (cols : List String) (row : Row) (c : String) : Cell :=
  match colIdx c cols with
  | some i => row.getD i none
  | none => none

/-- Set the cell of `row` in the (first) column named `c`. -/
def setCell (cols : List String) (row : Row) (c : String) (v : Cell) : Row :=
  match colIdx c cols with
  | some i => row.set i v
  | none => row

/-- `email_col` (line 53): the first column whose lower-cased name is
`email`, if any. -/
def emailColOf (cols : List String) : Option String :=
  cols.find? (fun c => lowerStr c == "email")

/-- `email2_col` (line 54): the first column whose lower-cased name is
`email2`, if any. -/
def email2ColOf (cols : List String) : Option String :=
  cols.find? (fun c => lowerStr c == "email2")

/-- The derived row of fanout case 1 (lines 69-71): copy the row and
swap the values of the `email` and `email2` columns (the Python tuple
assignment reads both old values before writing). -/
def swapRow (cols : List String) (e e2 : String) (row : Row) : Row :=
  setCell cols (setCell cols row e (getCell cols row e2)) e2 (getCell cols row e)

/-- The rows contributed to `processed_rows` by one input row
(lines 62-81). `e` is the located email column, `e2?` the located
optional email2 column.

* Case 1 (line 64): `email2` column exists and both cells are
  non-missing: the original row, then the swapped copy.
* Case 2 (line 74): only `email` non-missing: the row unchanged.
* Case 3 (line 78): `email2` column exists and only its cell is
  non-missing: the row with `email` taking the email2 value and
  `email2` set to missing.
* Case 4 (implicit else): no row is contributed. -/
def processRow (cols : List String) (e : String) (e2? : Option String) (row : Row) : List Row :=
  match e2? with
  | some e2 =>
    if (getCell cols row e).isSome && (getCell cols row e2).isSome then
      [row, swapRow cols e e2 row]
    else if (getCell cols row e).isSome then
      [row]
    else if (getCell cols row e2).isSome then
      [setCell cols (setCell cols row e (getCell cols row e2)) e2 none]
    else []
  | none =>
    if (getCell cols row e).isSome then [row] else []

/-- The full `processed_rows` list built by the loop of lines 62-81:
each row appends its contribution in order. -/
def processRows (cols : List String) (e : String) (e2? : Option String) : List Row → List Row
  | [] => []
  | r :: rs => processRow cols e e2? r ++ processRows cols e e2? rs

/-- Column names of `pd.DataFrame(processed_rows)` (line 84): the input
column names when at least one row was produced, and the empty column
set when `processed_rows` is empty (`pd.DataFrame([])` has no columns). -/
def frameCols (cols : List String) (processed : List Row) : List String :=
  if processed.isEmpty then [] else cols

/-- `df.drop(columns=[c], errors=ignore)` (line 88): remove every
column named `c` together with its cells in every row. -/
def dropAllCols (cols : List String) (rows : List Row) (c : String) : Dataset :=
  ⟨cols.filter (fun x => x != c),
   rows.map (fun r => ((cols.zip r).filter (fun p => p.1 != c)).map Prod.snd)⟩

/-- `create_intermediate_csv` (lines 45-94), the email-fanout
normalization, minus file I/O: canonicalize the column names, require
an `email` column (line 56 raises otherwise), fan the rows out, build
the intermediate frame, and drop the `email2` column when one exists. -/
def normalize (d : Dataset) : Except String Dataset :=
  match emailColOf (canonCols d.cols) with
  | none => Except.error "The main file must contain an Email column."
  | some e =>
    match email2ColOf (canonCols d.cols) with
    | some e2 =>
      Except.ok (dropAllCols
        (frameCols (canonCols d.cols) (processRows (canonCols d.cols) e (some e2) d.rows))
        (processRows (canonCols d.cols) e (some e2) d.rows) e2)
    | none =>
      Except.ok ⟨frameCols (canonCols d.cols) (processRows (canonCols d.cols) e none d.rows),
                 processRows (canonCols d.cols) e none d.rows⟩

/-- `df.rename(columns=mapping)` (line 108): each column name that is a
key of the mapping is replaced by its target; the rest are unchanged. -/
def renameCols (m : List (String × String)) (cols : List String) : List String :=
  cols.map (fun c => match List.lookup c m with | some t => t | none => c)

/-- The secondary column names after canonicalization (line 104) and
the optional rename (line 108). -/
def sdColsFinal (sd : Dataset) (m : List (String × String)) : List String :=
  renameCols m (canonCols sd.cols)

/-- The secondary rows surviving the email pre-filter of line 113:
those whose `email` cell is non-missing. -/
def filteredSecondary (sd : Dataset) (m : List (String × String)) : List Row :=
  sd.rows.filter (fun r => (getCell (sdColsFinal sd m) r "email").isSome)

/-- The values of the column named `c` across all rows, as used by the
`isin` tests of lines 117-118. -/
def colVals (cols : List String) (rows : List Row) (c : String) : List Cell :=
  rows.map (fun r => getCell cols r c)

/-- The match test of lines 116-119: the vin cell occurs among the
intermediate vin values AND the email cell occurs among the
intermediate email values — two independent membership tests. -/
def isMatched (ndCols : List String) (ndRows : List Row) (sdCols : List String) (r : Row) : Bool :=
  (colVals ndCols ndRows "vin").contains (getCell sdCols r "vin")
    && (colVals ndCols ndRows "email").contains (getCell sdCols r "email")

/-- `unmatched_secondary` (lines 116-119): the filtered secondary rows
that fail the match test. -/
def unmatchedSecondary (nd sd : Dataset) (m : List (String × String)) : List Row :=
  (filteredSecondary sd m).filter
    (fun r => !(isMatched (canonCols nd.cols) nd.rows (sdColsFinal sd m) r))

/-- `unmatched_secondary.reindex(columns=intermediate_df.columns)`
(line 122) on one row: for each target column take the cell of the
equally named source column, missing when the source lacks it. -/
def reindexRow (srcCols tgtCols : List String) (row : Row) : Row :=
  tgtCols.map (fun c => getCell srcCols row c)

/-- `create_final_csv` (lines 97-136), the merge reconciliation, minus
file I/O: canonicalize both column sets, rename the secondary columns,
filter the secondary rows to those with an email (line 113 raises
`KeyError` when the secondary has no `email` column), compute the
unmatched rows (lines 116-119 raise `KeyError` when the secondary or
the intermediate lacks `vin`, or the intermediate lacks `email`; the
column lookups are evaluated in that order), reindex them to the
intermediate layout and append them after the intermediate rows
(line 125). -/
def reconcile (nd sd : Dataset) (m : List (String × String)) : Except String Dataset :=
  if "email" ∈ sdColsFinal sd m then
    if "vin" ∈ sdColsFinal sd m then
      if "vin" ∈ canonCols nd.cols then
        if "email" ∈ canonCols nd.cols then
          Except.ok ⟨canonCols nd.cols,
            nd.rows ++ (unmatchedSecondary nd sd m).map
              (reindexRow (sdColsFinal sd m) (canonCols nd.cols))⟩
        else Except.error "KeyError: email"
      else Except.error "KeyError: vin"
    else Except.error "KeyError: vin"
  else Except.error "KeyError: email"

/-- A computation that raised (pandas `ValueError` / `KeyError`). -/
def isError : Except String Dataset → Bool
  | Except.error _ => true
  | Except.ok _ => false

/-! ### Basic lemmas about the column model -/

theorem colIdx_eq_none_of_not_mem {c : String} {cols : List String}
    (h : c ∉ cols) : colIdx c cols = none := by
  induction cols with
  | nil => rfl
  | cons y ys ih =>
    have hy : y ≠ c := fun hyc => h (hyc ▸ List.mem_cons_self y ys)
    have hr := ih (fun hc => h (List.mem_cons_of_mem y hc))
    simp [colIdx, if_neg hy, hr]

theorem colIdx_lt_length {c : String} {cols : List String} {i : Nat}
    (h : colIdx c cols = some i) : i < cols.length := by
  induction cols generalizing i with
  | nil => simp [colIdx] at h
  | cons y ys ih =>
    by_cases hy : y = c
    · simp only [colIdx, if_pos hy, Option.some.injEq] at h
      simp only [List.length_cons]
      omega
    · cases hr : colIdx c ys with
      | none => simp [colIdx, if_neg hy, hr] at h
      | some j =>
        simp only [colIdx, if_neg hy, hr, Option.some.injEq] at h
        have := ih hr
        simp only [List.length_cons]
        omega

theorem colIdx_getElem {c : String} {cols : List String} {i : Nat}
    (h : colIdx c cols = some i) : cols[i]? = some c := by
  induction cols generalizing i with
  | nil => simp [colIdx] at h
  | cons y ys ih =>
    by_cases hy : y = c
    · simp only [colIdx, if_pos hy, Option.some.injEq] at h
      subst h
      simp [hy]
    · cases hr : colIdx c ys with
      | none => simp [colIdx, if_neg hy, hr] at h
      | some j =>
        simp only [colIdx, if_neg hy, hr, Option.some.injEq] at h
        subst h
        simpa using ih hr

theorem colIdx_isSome_of_mem {c : String} {cols : List String} (h : c ∈ cols) :
    ∃ i, colIdx c cols = some i := by
  induction cols with
  | nil => simp at h
  | cons y ys ih =>
    by_cases hy : y = c
    · exact ⟨0, by simp [colIdx, hy]⟩
    · have hc : c ∈ ys := by
        rcases List.mem_cons.mp h with h1 | h1
        · exact absurd h1.symm hy
        · exact h1
      obtain ⟨i, hi⟩ := ih hc
      exact ⟨i + 1, by simp [colIdx, if_neg hy, hi]⟩

theorem getCell_of_not_mem {cols : List String} {row : Row} {c : String}
    (h : c ∉ cols) : getCell cols row c = none := by
  unfold getCell
  rw [colIdx_eq_none_of_not_mem h]

theorem getCell_setCell_same {cols : List String} {row : Row} {c : String} {v : Cell}
    (hc : c ∈ cols) (hlen : row.length = cols.length) :
    getCell cols (setCell cols row c v) c = v := by
  obtain ⟨i, hi⟩ := colIdx_isSome_of_mem hc
  have hb : i < row.length := hlen ▸ colIdx_lt_length hi
  simp only [getCell, setCell, hi]
  simp [List.getD_eq_getElem?_getD, List.getElem?_set_self hb]

theorem getCell_setCell_other {cols : List String} {row : Row} {c d : String} {v : Cell}
    (hcd : c ≠ d) : getCell cols (setCell cols row d v) c = getCell cols row c := by
  cases hd : colIdx d cols with
  | none => simp only [getCell, setCell, hd]
  | some i =>
    cases hc : colIdx c cols with
    | none => simp only [getCell, setCell, hd, hc]
    | some j =>
      have hij : i ≠ j := by
        intro hij
        subst hij
        have h1 := colIdx_getElem hd
        have h2 := colIdx_getElem hc
        rw [h1] at h2
        exact hcd (Option.some.inj h2).symm
      simp only [getCell, setCell, hd, hc]
      simp [List.getD_eq_getElem?_getD, List.getElem?_set_ne hij]

theorem length_setCell {cols : List String} {row : Row} {c : String} {v : Cell} :
    (setCell cols row c v).length = row.length := by
  unfold setCell
  cases colIdx c cols <;> simp

/-! ### Lemmas about the fanout loop -/

theorem processRows_append (cols : List String) (e : String) (e2? : Option String)
    (l1 l2 : List Row) :
    processRows cols e e2? (l1 ++ l2) =
      processRows cols e e2? l1 ++ processRows cols e e2? l2 := by
  induction l1 with
  | nil => simp [processRows]
  | cons r rs ih => simp [processRows, ih]

theorem length_le_processRows (cols : List String) (e : String) (e2? : Option String)
    (rows : List Row) (h : ∀ r ∈ rows, processRow cols e e2? r ≠ []) :
    rows.length ≤ (processRows cols e e2? rows).length := by
  induction rows with
  | nil => simp [processRows]
  | cons r rs ih =>
    have h1 : 1 ≤ (processRow cols e e2? r).length :=
      List.length_pos.mpr (h r (List.mem_cons_self r rs))
    have h2 := ih (fun x hx => h x (List.mem_cons_of_mem r hx))
    simp only [processRows, List.length_append, List.length_cons]
    omega

theorem processRows_eq_nil (cols : List String) (e : String) (e2? : Option String)
    (rows : List Row) (h : ∀ r ∈ rows, processRow cols e e2? r = []) :
    processRows cols e e2? rows = [] := by
  induction rows with
  | nil => rfl
  | cons r rs ih =>
    simp only [processRows, h r (List.mem_cons_self r rs), List.nil_append]
    exact ih (fun x hx => h x (List.mem_cons_of_mem r hx))

/-! ### Lemmas about the reconcile stage -/

theorem reconcile_ok_eq {nd sd : Dataset} {m : List (String × String)} {out : Dataset}
    (h : reconcile nd sd m = Except.ok out) :
    out = ⟨canonCols nd.cols,
      nd.rows ++ (unmatchedSecondary nd sd m).map
        (reindexRow (sdColsFinal sd m) (canonCols nd.cols))⟩ := by
  unfold reconcile at h
  split_ifs at h
  exact (Except.ok.inj h).symm

theorem contains_iff_mem_cell {a : Cell} {l : List Cell} : l.contains a = true ↔ a ∈ l := by
  simp [List.contains, List.elem_iff]

/-! ### Concrete datasets used by the evaluation theorems -/

/-- Example intermediate dataset with vins V1, V2 and emails a, b. -/
def ndPair : Dataset :=
  ⟨["vin", "email"], [[some "V1", some "a@x.com"], [some "V2", some "b@x.com"]]⟩

/-- Example secondary dataset whose only row pairs vin V2 with email a:
the pair occurs in no single row of `ndPair`, but each component occurs
in some row. -/
def sdCross : Dataset :=
  ⟨["vin", "email"], [[some "V2", some "a@x.com"]]⟩

/-- Result of reconciling `ndPair` with `sdCross`: the cross row is
matched, so nothing is appended. -/
def outCross : Dataset :=
  ⟨["vin", "email"], [[some "V1", some "a@x.com"], [some "V2", some "b@x.com"]]⟩

/-! ### The reconcile-stage claims -/

/-- C1: in `reconcile`, a filtered secondary record is excluded from
the appended output exactly when its `vin` value occurs among the
intermediate vin values AND its `email` value occurs among the
intermediate email values — two independent set-membership tests over
possibly different rows, not a joint pair test (lines 116-119 of
src/script.py). -/
theorem reconcile_independent_matching
    (nd sd : Dataset) (m : List (String × String)) (out : Dataset)
    (h : reconcile nd sd m = Except.ok out) :
    out.rows = nd.rows ++ (unmatchedSecondary nd sd m).map
        (reindexRow (sdColsFinal sd m) (canonCols nd.cols))
    ∧ ∀ r ∈ filteredSecondary sd m,
        (r ∈ unmatchedSecondary nd sd m ↔
          ¬(getCell (sdColsFinal sd m) r "vin" ∈ colVals (canonCols nd.cols) nd.rows "vin"
            ∧ getCell (sdColsFinal sd m) r "email" ∈ colVals (canonCols nd.cols) nd.rows "email")) := by
  refine ⟨by rw [reconcile_ok_eq h], ?_⟩
  intro r hr
  have hu : (r ∈ unmatchedSecondary nd sd m) ↔
      ¬(isMatched (canonCols nd.cols) nd.rows (sdColsFinal sd m) r = true) := by
    simp [unmatchedSecondary, List.mem_filter, hr]
  rw [hu]
  simp [isMatched, Bool.and_eq_true, contains_iff_mem_cell]

/-- Evaluation of `reconcile_independent_matching` on `ndPair` and
`sdCross`: the cross record (vin of one row, email of another) is
matched, hence excluded. -/
theorem reconcile_independent_matching_witness :
    outCross.rows = ndPair.rows ++ (unmatchedSecondary ndPair sdCross []).map
        (reindexRow (sdColsFinal sdCross []) (canonCols ndPair.cols))
    ∧ ([some "V2", some "a@x.com"] ∈ unmatchedSecondary ndPair sdCross [] ↔
        ¬(getCell (sdColsFinal sdCross []) [some "V2", some "a@x.com"] "vin"
            ∈ colVals (canonCols ndPair.cols) ndPair.rows "vin"
          ∧ getCell (sdColsFinal sdCross []) [some "V2", some "a@x.com"] "email"
            ∈ colVals (canonCols ndPair.cols) ndPair.rows "email")) := by
  have h := reconcile_independent_matching ndPair sdCross [] outCross rfl
  exact ⟨h.1, h.2 _ (by decide)⟩

/-- C4: `reconcile` fails (with a raised error and no output) whenever
the secondary dataset, after canonicalization and column mapping, lacks
a `vin` column or an `email` column (lines 113 and 117-118 raise
`KeyError` before the output of line 128 is written). -/
theorem reconcile_secondary_schema_error
    (nd sd : Dataset) (m : List (String × String))
    (h : "vin" ∉ sdColsFinal sd m ∨ "email" ∉ sdColsFinal sd m) :
    isError (reconcile nd sd m) = true := by
  unfold reconcile
  split_ifs with h1 h2 h3 h4 <;>
    first
      | rfl
      | (rcases h with h5 | h5
         · exact absurd h2 h5
         · exact absurd h1 h5)

/-- Evaluation of `reconcile_secondary_schema_error`: a secondary file
with only an `email` column makes `reconcile` fail. -/
theorem reconcile_secondary_schema_error_witness :
    ("vin" ∉ sdColsFinal ⟨["email"], []⟩ []
      ∨ "email" ∉ sdColsFinal ⟨["email"], []⟩ [])
    ∧ isError (reconcile ⟨["vin", "email"], []⟩ ⟨["email"], []⟩ []) = true :=
  ⟨Or.inl (by decide),
   reconcile_secondary_schema_error ⟨["vin", "email"], []⟩ ⟨["email"], []⟩ []
     (Or.inl (by decide))⟩

/-- C9: `reconcile` also fails whenever the intermediate (normalized)
dataset lacks a `vin` or an `email` column: lines 117-118 index
`intermediate_df` by both names, raising `KeyError` before any output
is written, even though the documented schema constraint names only the
secondary file. -/
theorem reconcile_intermediate_schema_error
    (nd sd : Dataset) (m : List (String × String))
    (h : "vin" ∉ canonCols nd.cols ∨ "email" ∉ canonCols nd.cols) :
    isError (reconcile nd sd m) = true := by
  unfold reconcile
  split_ifs with h1 h2 h3 h4 <;>
    first
      | rfl
      | (rcases h with h5 | h5
         · exact absurd h3 h5
         · exact absurd h4 h5)

/-- Evaluation of `reconcile_intermediate_schema_error`: an
intermediate dataset without a `vin` column makes `reconcile` fail even
when the secondary dataset has both required columns. -/
theorem reconcile_intermediate_schema_error_witness :
    ("vin" ∉ canonCols (Dataset.cols ⟨["email"], []⟩)
      ∨ "email" ∉ canonCols (Dataset.cols ⟨["email"], []⟩))
    ∧ isError (reconcile ⟨["email"], []⟩ ⟨["vin", "email"], [[some "V", some "e"]]⟩ []) = true :=
  ⟨Or.inl (by decide),
   reconcile_intermediate_schema_error ⟨["email"], []⟩
     ⟨["vin", "email"], [[some "V", some "e"]]⟩ [] (Or.inl (by decide))⟩

/-- C6: the output of `reconcile` is the intermediate rows, unchanged
and in order, followed by the reshaped unmatched secondary rows; its
length is the intermediate row count plus the number of unmatched
filtered secondary rows (line 125, `pd.concat`). -/
theorem reconcile_append_only
    (nd sd : Dataset) (m : List (String × String)) (out : Dataset)
    (h : reconcile nd sd m = Except.ok out) :
    out.rows = nd.rows ++ (unmatchedSecondary nd sd m).map
        (reindexRow (sdColsFinal sd m) (canonCols nd.cols))
    ∧ out.rows.length = nd.rows.length + (unmatchedSecondary nd sd m).length := by
  have he := reconcile_ok_eq h
  refine ⟨by rw [he], ?_⟩
  rw [he]
  simp

/-- Example intermediate dataset for the append-only evaluation. -/
def ndApp : Dataset := ⟨["vin", "email"], [[some "V1", some "a@x"]]⟩

/-- Example secondary dataset for the append-only evaluation: one
unmatched row with an extra column, one row without email. -/
def sdApp : Dataset :=
  ⟨["vin", "email", "extra"],
   [[some "V9", some "z@x", some "q"], [some "V1", none, some "w"]]⟩

/-- Result of reconciling `ndApp` with `sdApp`. -/
def outApp : Dataset :=
  ⟨["vin", "email"], [[some "V1", some "a@x"], [some "V9", some "z@x"]]⟩

/-- Evaluation of `reconcile_append_only` on `ndApp` and `sdApp`. -/
theorem reconcile_append_only_witness :
    outApp.rows = ndApp.rows ++ (unmatchedSecondary ndApp sdApp []).map
        (reindexRow (sdColsFinal sdApp []) (canonCols ndApp.cols))
    ∧ outApp.rows.length = ndApp.rows.length + (unmatchedSecondary ndApp sdApp []).length :=
  reconcile_append_only ndApp sdApp [] outApp rfl

/-- C8: a secondary record whose email value is missing is dropped by
the pre-filter of line 113 and contributes nothing to the output,
whatever its vin: removing such a record from the secondary dataset
does not change the result of `reconcile` at all. -/
theorem reconcile_missing_email_excluded
    (nd : Dataset) (scols : List String) (pre post : List Row) (r : Row)
    (m : List (String × String))
    (h : getCell (renameCols m (canonCols scols)) r "email" = none) :
    reconcile nd ⟨scols, pre ++ r :: post⟩ m = reconcile nd ⟨scols, pre ++ post⟩ m := by
  have hfilt : filteredSecondary ⟨scols, pre ++ r :: post⟩ m
      = filteredSecondary ⟨scols, pre ++ post⟩ m := by
    simp only [filteredSecondary, sdColsFinal]
    rw [List.filter_append, List.filter_append, List.filter_cons]
    simp [h]
  have hc1 : sdColsFinal ⟨scols, pre ++ r :: post⟩ m = renameCols m (canonCols scols) := rfl
  have hc2 : sdColsFinal ⟨scols, pre ++ post⟩ m = renameCols m (canonCols scols) := rfl
  unfold reconcile unmatchedSecondary
  rw [hfilt, hc1, hc2]

/-- Evaluation of `reconcile_missing_email_excluded`: a secondary row
with an unmatched vin but no email leaves the result unchanged. -/
theorem reconcile_missing_email_excluded_witness :
    reconcile ndApp ⟨["vin", "email"], [[some "V9", none]]⟩ []
      = reconcile ndApp ⟨["vin", "email"], []⟩ [] :=
  reconcile_missing_email_excluded ndApp ["vin", "email"] [] [] [some "V9", none] []
    (by decide)

/-! ### The normalize-stage claims -/

/-- A dataset with no email-named column (under strip, lower-case and
the second lower-casing of line 53). -/
def dNoEmail : Dataset := ⟨[" VIN ", "Name"], [[some "x", some "y"]]⟩

/-- C3: `normalize` on a dataset with no email-named column
(case-insensitive match, line 53) raises the `ValueError` of line 57
and produces no dataset at all, so nothing is persisted. -/
theorem normalize_missing_email_error (d : Dataset)
    (h : ∀ c ∈ canonCols d.cols, lowerStr c ≠ "email") :
    normalize d = Except.error "The main file must contain an Email column." := by
  have he : emailColOf (canonCols d.cols) = none := by
    unfold emailColOf
    rw [List.find?_eq_none]
    intro x hx
    simpa using h x hx
  unfold normalize
  rw [he]

/-- Evaluation of `normalize_missing_email_error` on `dNoEmail`. -/
theorem normalize_missing_email_error_witness :
    normalize dNoEmail = Except.error "The main file must contain an Email column." :=
  normalize_missing_email_error dNoEmail (by decide)

/-- Input whose single record falls into fanout case 1. -/
def dGrow : Dataset := ⟨["email", "email2"], [[some "a", some "b"]]⟩

/-- Result of normalizing `dGrow`. -/
def outGrow : Dataset := ⟨["email"], [[some "a"], [some "b"]]⟩

/-- Input with one case-1 record and two case-4 records (both emails
missing, hence dropped). -/
def dShrink : Dataset :=
  ⟨["email", "email2"], [[some "a", some "b"], [none, none], [none, none]]⟩

/-- Result of normalizing `dShrink`: two rows from the fanout pair, the
two dropped records contribute nothing. -/
def outShrink : Dataset := ⟨["email"], [[some "a"], [some "b"]]⟩

/-- C2 as stated is false: `dShrink` has a record in case 1 (its first
row has both emails non-missing), `normalize` succeeds, and the output
has 2 rows against 3 input rows — the case-4 drops outweigh the
fanout, so the output row count is NOT ≥ the input row count. -/
theorem normalize_growth_counterexample :
    dShrink.rows.head? = some [some "a", some "b"]
    ∧ (getCell (canonCols dShrink.cols) [some "a", some "b"] "email").isSome = true
    ∧ (getCell (canonCols dShrink.cols) [some "a", some "b"] "email2").isSome = true
    ∧ emailColOf (canonCols dShrink.cols) = some "email"
    ∧ email2ColOf (canonCols dShrink.cols) = some "email2"
    ∧ normalize dShrink = Except.ok outShrink
    ∧ outShrink.rows.length < dShrink.rows.length :=
  ⟨rfl, by decide, by decide, by decide, by decide, rfl, by decide⟩

/-- C2 amended: whenever at least one record falls into case 1 and no
record falls into case 4 (no record is dropped by the loop of
lines 62-81), the output row count of `normalize` is at least the
input row count. -/
theorem normalize_growth (d out : Dataset) (e e2 : String)
    (hE : emailColOf (canonCols d.cols) = some e)
    (hE2 : email2ColOf (canonCols d.cols) = some e2)
    (h1 : ∃ r ∈ d.rows, (getCell (canonCols d.cols) r e).isSome = true
            ∧ (getCell (canonCols d.cols) r e2).isSome = true)
    (h2 : ∀ r ∈ d.rows, processRow (canonCols d.cols) e (some e2) r ≠ [])
    (h : normalize d = Except.ok out) :
    d.rows.length ≤ out.rows.length := by
  unfold normalize at h
  simp only [hE, hE2] at h
  have hout := (Except.ok.inj h).symm
  have hlen : out.rows.length
      = (processRows (canonCols d.cols) e (some e2) d.rows).length := by
    rw [hout]
    simp [dropAllCols]
  rw [hlen]
  exact length_le_processRows _ _ _ _ h2

/-- Evaluation of `normalize_growth` on `dGrow`. -/
theorem normalize_growth_witness : dGrow.rows.length ≤ outGrow.rows.length :=
  normalize_growth dGrow outGrow "email" "email2" (by decide) (by decide)
    (by decide) (by decide) rfl

/-- C5: a record with both email cells non-missing contributes exactly
two adjacent rows to the emitted list of lines 62-71 — the original
row first, immediately followed by the derived row, which carries the
two email values swapped and every other cell unchanged. (The
`email2` column of the emitted rows is dropped afterwards, line 88.) -/
theorem normalize_case1_fanout (cols : List String) (e e2 : String) (row : Row)
    (pre post : List Row)
    (hE : emailColOf cols = some e) (hE2 : email2ColOf cols = some e2)
    (hlen : row.length = cols.length)
    (h1 : (getCell cols row e).isSome = true) (h2 : (getCell cols row e2).isSome = true) :
    processRows cols e (some e2) (pre ++ row :: post)
      = processRows cols e (some e2) pre
        ++ row :: swapRow cols e e2 row :: processRows cols e (some e2) post
    ∧ getCell cols (swapRow cols e e2 row) e = getCell cols row e2
    ∧ getCell cols (swapRow cols e e2 row) e2 = getCell cols row e
    ∧ ∀ c, c ≠ e → c ≠ e2 → getCell cols (swapRow cols e e2 row) c = getCell cols row c := by
  have heMem : e ∈ cols := List.mem_of_find?_eq_some hE
  have he2Mem : e2 ∈ cols := List.mem_of_find?_eq_some hE2
  have hpe := List.find?_some hE
  have hpe2 := List.find?_some hE2
  rw [beq_iff_eq] at hpe hpe2
  have hne : e ≠ e2 := by
    intro heq
    rw [heq, hpe2] at hpe
    exact absurd hpe (by decide)
  refine ⟨?_, ?_, ?_, ?_⟩
  · rw [processRows_append]
    simp [processRows, processRow, h1, h2]
  · unfold swapRow
    rw [getCell_setCell_other hne, getCell_setCell_same heMem hlen]
  · unfold swapRow
    rw [getCell_setCell_same he2Mem (by rw [length_setCell, hlen])]
  · intro c hce hce2
    unfold swapRow
    rw [getCell_setCell_other hce2, getCell_setCell_other hce]

/-- Evaluation of `normalize_case1_fanout` on a three-column row. -/
theorem normalize_case1_fanout_witness :
    processRows ["email", "email2", "name"] "email" (some "email2")
        [[some "a", some "b", some "n"]]
      = [[some "a", some "b", some "n"],
         swapRow ["email", "email2", "name"] "email" "email2" [some "a", some "b", some "n"]]
    ∧ getCell ["email", "email2", "name"]
        (swapRow ["email", "email2", "name"] "email" "email2" [some "a", some "b", some "n"])
        "email"
      = getCell ["email", "email2", "name"] [some "a", some "b", some "n"] "email2"
    ∧ getCell ["email", "email2", "name"]
        (swapRow ["email", "email2", "name"] "email" "email2" [some "a", some "b", some "n"])
        "email2"
      = getCell ["email", "email2", "name"] [some "a", some "b", some "n"] "email"
    ∧ getCell ["email", "email2", "name"]
        (swapRow ["email", "email2", "name"] "email" "email2" [some "a", some "b", some "n"])
        "name"
      = getCell ["email", "email2", "name"] [some "a", some "b", some "n"] "name" := by
  have h := normalize_case1_fanout ["email", "email2", "name"] "email" "email2"
    [some "a", some "b", some "n"] [] [] (by decide) (by decide) (by decide)
    (by decide) (by decide)
  exact ⟨h.1, h.2.1, h.2.2.1, h.2.2.2 "name" (by decide) (by decide)⟩

/-- Input whose `email2` column exists but is never populated. -/
def dE2 : Dataset := ⟨["Email", "Email2"], [[some "a", none]]⟩

/-- Result of normalizing `dE2`. -/
def outE2 : Dataset := ⟨["email"], [[some "a"]]⟩

/-- C7: after `normalize`, the located secondary-email column is gone
from the output schema (line 88 drops it even when no output row ever
had it populated), and reading that column from any output row yields
a missing value. -/
theorem normalize_email2_removed (d out : Dataset) (e2 : String)
    (hE2 : email2ColOf (canonCols d.cols) = some e2)
    (h : normalize d = Except.ok out) :
    e2 ∉ out.cols ∧ ∀ r ∈ out.rows, getCell out.cols r e2 = none := by
  unfold normalize at h
  cases hE : emailColOf (canonCols d.cols) with
  | none =>
    rw [hE] at h
    exact Except.noConfusion h
  | some e =>
    simp only [hE, hE2] at h
    have hout := (Except.ok.inj h).symm
    have hcols : out.cols
        = (frameCols (canonCols d.cols)
            (processRows (canonCols d.cols) e (some e2) d.rows)).filter
              (fun x => x != e2) := by
      rw [hout]
      rfl
    have hnm : e2 ∉ out.cols := by
      rw [hcols]
      intro hmem
      have hf := List.mem_filter.mp hmem
      simp at hf
    refine ⟨hnm, fun r _ => getCell_of_not_mem hnm⟩

/-- Evaluation of `normalize_email2_removed` on `dE2`: the `email2`
column existed in the input, was never populated in any output row,
and is gone from the output. -/
theorem normalize_email2_removed_witness :
    "email2" ∉ outE2.cols ∧ getCell outE2.cols [some "a"] "email2" = none := by
  have h := normalize_email2_removed dE2 outE2 "email2" (by decide) rfl
  exact ⟨h.1, h.2 _ (by decide)⟩

/-- Input in which every record falls into case 4: emails all missing. -/
def dAllDrop : Dataset := ⟨["vin", "email", "email2"], [[some "V", none, none]]⟩

/-- C10: when the fanout loop drops every input record, the resulting
dataset is built from an empty row list (`pd.DataFrame([])`, line 84),
so its column set is empty — not the input schema minus `email2` —
and the persisted output carries no header columns. -/
theorem normalize_all_dropped_empty_schema (d out : Dataset) (e : String)
    (hE : emailColOf (canonCols d.cols) = some e)
    (h4 : ∀ r ∈ d.rows,
      processRow (canonCols d.cols) e (email2ColOf (canonCols d.cols)) r = [])
    (h : normalize d = Except.ok out) :
    out.cols = [] ∧ out.rows = []
    ∧ ((canonCols d.cols).filter (fun c => c != "email2") ≠ [] →
        out.cols ≠ (canonCols d.cols).filter (fun c => c != "email2")) := by
  have hproc := processRows_eq_nil (canonCols d.cols) e
    (email2ColOf (canonCols d.cols)) d.rows h4
  unfold normalize at h
  cases hE2 : email2ColOf (canonCols d.cols) with
  | some e2 =>
    rw [hE2] at hproc
    simp only [hE, hE2] at h
    rw [hproc] at h
    have hout := (Except.ok.inj h).symm
    have hc : out.cols = [] := by
      rw [hout]
      simp [dropAllCols, frameCols]
    have hr : out.rows = [] := by
      rw [hout]
      simp [dropAllCols, frameCols]
    exact ⟨hc, hr, fun hne heq => hne (heq.symm.trans hc)⟩
  | none =>
    rw [hE2] at hproc
    simp only [hE, hE2] at h
    rw [hproc] at h
    have hout := (Except.ok.inj h).symm
    have hc : out.cols = [] := by
      rw [hout]
      simp [frameCols]
    have hr : out.rows = [] := by
      rw [hout]
    exact ⟨hc, hr, fun hne heq => hne (heq.symm.trans hc)⟩

/-- Evaluation of `normalize_all_dropped_empty_schema` on `dAllDrop`,
whose input schema minus `email2` would have been the two columns
`vin`, `email`. -/
theorem normalize_all_dropped_empty_schema_witness :
    (Dataset.mk ([] : List String) ([] : List Row)).cols = []
    ∧ (Dataset.mk ([] : List String) ([] : List Row)).rows = []
    ∧ (canonCols dAllDrop.cols).filter (fun c => c != "email2") = ["vin", "email"] := by
  have h := normalize_all_dropped_empty_schema dAllDrop ⟨[], []⟩ "email"
    (by decide) (by decide) rfl
  exact ⟨h.1, h.2.1, by decide⟩

end CompileLists
